import Mathlib

set_option maxRecDepth 8000
set_option maxHeartbeats 1000000

/-!
Verification development for the theme service of this repository
(src/vs/workbench/services/themes/electron-browser/themeService.ts).

The TypeScript source is shallowly embedded: JavaScript strings are Lean
strings (lists of characters), JavaScript objects whose keys are enumerated
with for-in loops are association lists in insertion order, JavaScript
numbers are modelled exactly (integers as Int, fractional values as Rat,
NaN as the none case of Option), and asynchronous promise chains are pure
functions threading an explicit service state.
-/

namespace ThemeServiceModel

/-! ## JavaScript string primitives -/

/-- Whitespace recognised by JavaScript String.prototype.trim: space, tab,
line feed, carriage return, vertical tab, form feed, no-break space and the
byte-order mark. -/
def isJsWhitespace (c : Char) : Bool :=
  c == ' ' || c == '\t' || c == '\n' || c == '\r' ||
  c == Char.ofNat 11 || c == Char.ofNat 12 || c == Char.ofNat 160 || c == Char.ofNat 65279

/-- Models JavaScript String.prototype.split with a single-character
separator, on the character list: an empty string yields one empty piece,
and adjacent separators yield empty pieces. -/
def jsSplitChar (sep : Char) : List Char → List (List Char)
  | [] => [[]]
  | c :: cs =>
    if c = sep then [] :: jsSplitChar sep cs
    else
      match jsSplitChar sep cs with
      | [] => [[c]]
      | p :: ps => (c :: p) :: ps

/-- Models JavaScript String.prototype.split with a single-character separator. -/
def jsSplit (sep : Char) (s : String) : List String :=
  (jsSplitChar sep s.data).map (fun l => String.mk l)

/-- Models JavaScript Array.prototype.join: pieces interleaved with the separator. -/
def jsJoin (sep : String) : List String → String
  | [] => ""
  | [x] => x
  | x :: y :: xs => x ++ sep ++ jsJoin sep (y :: xs)

/-- Models JavaScript String.prototype.trim: strips leading and trailing whitespace. -/
def jsTrim (s : String) : String :=
  String.mk (((s.data.dropWhile isJsWhitespace).reverse.dropWhile isJsWhitespace).reverse)

/-- Models the source expression rule.replace of a space by a dot with the
global flag: every space character is replaced by a dot. -/
def jsReplaceSpaceWithDot (s : String) : String :=
  String.mk (s.data.map (fun c => if c = ' ' then '.' else c))

/-- Models JavaScript String.prototype.toLowerCase on the ASCII range used
by theme documents. -/
def jsToLower (s : String) : String :=
  String.mk (s.data.map (fun c => if 65 ≤ c.toNat ∧ c.toNat ≤ 90 then Char.ofNat (c.toNat + 32) else c))

/-- Models JavaScript String.prototype.charAt at index 0: none when the string is empty. -/
def jsCharAt0 (s : String) : Option Char := s.data.head?

/-- Models JavaScript String.prototype.substr: the slice starting at a
character index with the given length, clamped to the string. -/
def jsSubstr (s : String) (start len : Nat) : String :=
  String.mk ((s.data.drop start).take len)

/-- Models JavaScript String.prototype.substring from index 0 to an end index. -/
def jsSubstringTo (s : String) (stop : Nat) : String :=
  String.mk (s.data.take stop)

/-- Length of a JavaScript string in characters. -/
def jsStrLength (s : String) : Nat := s.data.length

/-- Truthiness of an optional JavaScript string: undefined and the empty
string are falsy, every other string is truthy. -/
def truthyStr : Option String → Bool
  | none => false
  | some s => s ≠ ""

/-! ## JavaScript number primitives

JavaScript numbers reaching this module are exact: parseInt results are
integers, and alpha values are small rationals. NaN is modelled as none. -/

/-- Hexadecimal digit test for the parseInt model. -/
def isHexDigitChar (c : Char) : Bool :=
  (48 ≤ c.toNat && c.toNat ≤ 57) || (97 ≤ c.toNat && c.toNat ≤ 102) || (65 ≤ c.toNat && c.toNat ≤ 70)

/-- Value of one hexadecimal digit. -/
def hexDigitVal (c : Char) : Nat :=
  if 48 ≤ c.toNat ∧ c.toNat ≤ 57 then c.toNat - 48
  else if 97 ≤ c.toNat ∧ c.toNat ≤ 102 then c.toNat - 87
  else if 65 ≤ c.toNat ∧ c.toNat ≤ 70 then c.toNat - 55
  else 0

/-- Models the source helper parseHex, that is the JavaScript call
parseInt on the string 0x followed by the argument: the longest prefix of
hexadecimal digits is converted, and NaN (none) results when the argument
starts with no hexadecimal digit at all. -/
def jsParseHexString (s : String) : Option Nat :=
  let ds := s.data.takeWhile isHexDigitChar
  if ds.isEmpty then none else some (ds.foldl (fun acc c => 16 * acc + hexDigitVal c) 0)

/-- Models JavaScript float multiplication on the exact rational values that
occur here (Rat.divInt keeps kernel reduction available). -/
def ratMulJs (a b : Rat) : Rat := Rat.divInt (a.num * b.num) ((a.den : Int) * (b.den : Int))

/-- Models JavaScript Number.prototype.toFixed with two digits, returning
the number of hundredths: the nearest integer multiple of one hundredth,
ties resolved upward. -/
def jsToFixed2AsHundredths (q : Rat) : Int :=
  Int.fdiv (200 * q.num + (q.den : Int)) (2 * (q.den : Int))

/-- Renders a count of hundredths the way the source expression
+value.toFixed(2) renders inside a template literal: trailing zeros of the
fraction are dropped. -/
def hundredthsToString (n : Int) : String :=
  let sign := if n < 0 then "-" else ""
  let m := n.natAbs
  let ip := m / 100
  let fr := m % 100
  if fr = 0 then sign ++ toString ip
  else if fr % 10 = 0 then sign ++ toString ip ++ "." ++ toString (fr / 10)
  else if fr < 10 then sign ++ toString ip ++ ".0" ++ toString fr
  else sign ++ toString ip ++ "." ++ toString fr

/-! ## Color model (class Color, lines 685 to 737 of the source) -/

/-- Parsed color value: channels are integers or NaN (none), alpha is an
exact rational or NaN (none). -/
structure RGBA where
  r : Option Int
  g : Option Int
  b : Option Int
  a : Option Rat
  deriving DecidableEq, Repr

/-- Translation of the static method Color.parse: a string starting with a
number sign and at least 7 characters long is read positionally (two
hexadecimal characters per channel, alpha from characters 7 and 8 divided
by 255 exactly when the length is 9); every other string yields the fixed
fallback color. -/
def colorParse (color : String) : RGBA :=
  if jsCharAt0 color = some '#' ∧ 7 ≤ jsStrLength color then
    { r := (jsParseHexString (jsSubstr color 1 2)).map Int.ofNat
      g := (jsParseHexString (jsSubstr color 3 2)).map Int.ofNat
      b := (jsParseHexString (jsSubstr color 5 2)).map Int.ofNat
      a := if jsStrLength color = 9 then (jsParseHexString (jsSubstr color 7 2)).map (fun n => Rat.divInt n 255) else some 1 }
  else { r := some 255, g := some 0, b := some 0, a := some 1 }

/-- Rendering of one integer channel inside the rgba template literal. -/
def intChannelToString : Option Int → String
  | none => "NaN"
  | some n => toString n

/-- Rendering of the alpha channel inside the rgba template literal, through
toFixed(2) and the unary plus of the source. -/
def alphaToString : Option Rat → String
  | none => "NaN"
  | some q => hundredthsToString (jsToFixed2AsHundredths q)

/-- Translation of Color.prototype.toString. -/
def colorToString (c : RGBA) : String :=
  "rgba(" ++ intChannelToString c.r ++ ", " ++ intChannelToString c.g ++ ", " ++
    intChannelToString c.b ++ ", " ++ alphaToString c.a ++ ")"

/-- Translation of Color.prototype.transparent: alpha is multiplied by the
factor, channels are unchanged; NaN propagates. -/
def colorTransparent (c : RGBA) (factor : Rat) : RGBA :=
  { c with a := c.a.map (fun q => ratMulJs q factor) }

/-- Translation of Color.prototype.opposite: every channel subtracted from
255, alpha preserved; NaN propagates. -/
def colorOpposite (c : RGBA) : RGBA :=
  { r := c.r.map (fun n => 255 - n)
    g := c.g.map (fun n => 255 - n)
    b := c.b.map (fun n => 255 - n)
    a := c.a }

/-- Rendering of a freshly parsed color string, as the template literals of
the source do. -/
def colorStringOf (value : String) : String := colorToString (colorParse value)

/-! ## Path helpers

The source imports them from vs/base/common/paths, a module of this
repository that is not part of the sources under review; they are modelled
from the specification wording. -/

/-- Modelled from the spec: basename of a slash-separated path (the helper
vs/base/common/paths.basename is not in the reviewed sources). -/
def pathBasename (p : String) : String :=
  String.mk ((p.data.reverse.takeWhile (fun c => c ≠ '/')).reverse)

/-- Modelled from the spec: dirname of a slash-separated path, the directory
prefix before the last slash, or a dot when there is no slash
(vs/base/common/paths.dirname is not in the reviewed sources). -/
def pathDirname (p : String) : String :=
  if '/' ∈ p.data then
    String.mk ((p.data.reverse.dropWhile (fun c => c ≠ '/')).drop 1).reverse
  else "."

/-- Modelled from the spec: joining a directory and a relative path with a
slash, without normalization (vs/base/common/paths.join is not in the
reviewed sources). -/
def pathJoin (a b : String) : String :=
  if a = "" then b
  else if a.data.getLast? = some '/' then a ++ b
  else a ++ "/" ++ b

/-- Modelled from the spec: extension of a path, the suffix of its basename
from the last dot on, or the empty string when the basename has no dot
(vs/base/common/paths.extname is not in the reviewed sources). -/
def pathExtname (p : String) : String :=
  let base := pathBasename p
  if '.' ∈ base.data then
    String.mk ('.' :: (base.data.reverse.takeWhile (fun c => c ≠ '.')).reverse)
  else ""

/-! ## Theme document model (interfaces at lines 102 to 122 of the source)

Style attribute records are JSON objects; a for-in loop enumerates their
keys in document order, so they are embedded as association lists of
key-value pairs in that order. The scope attribute is either one string or
an array of strings. -/

/-- One entry of the settings array of a color theme document. -/
structure ThemeSetting where
  name : Option String
  scope : Option (String ⊕ List String)
  settings : List (String × String)
  deriving DecidableEq, Repr

/-- Parsed color theme document. -/
structure ThemeDocument where
  name : String
  «include» : Option String
  settings : List ThemeSetting
  deriving DecidableEq, Repr

/-- JavaScript truthiness of the scope attribute: undefined and the empty
string are falsy; every array, even the empty one, is truthy. -/
def truthyScope : Option (String ⊕ List String) → Bool
  | none => false
  | some (Sum.inl s) => s ≠ ""
  | some (Sum.inr _) => true

/-- Modelled from the spec: the theme id is a composite of a base variant
and a sanitized selector separated by a space, and the base variant part is
the prefix before the first space (vs/platform/theme/common/themes.getBaseThemeId
is not in the reviewed sources). -/
def getBaseThemeId (themeId : String) : String :=
  String.mk (themeId.data.takeWhile (fun c => c ≠ ' '))

/-- Modelled from the spec: the syntax selector part of a composite theme
id is the suffix after the first space (vs/platform/theme/common/themes.getSyntaxThemeId
is not in the reviewed sources). -/
def getSyntaxThemeId (themeId : String) : String :=
  match themeId.data.dropWhile (fun c => c ≠ ' ') with
  | [] => ""
  | _ :: rest => String.mk rest

/-- Theme selector computed at line 579 of the source. -/
def themeSelector (themeId : String) : String :=
  getBaseThemeId themeId ++ "." ++ getSyntaxThemeId themeId

/-! ## Rule compiler for color themes (lines 566 to 667 of the source) -/

/-- Declaration produced by one recognised fontStyle segment; segments the
switch does not recognise produce nothing. -/
def fontStyleDecl : String → Option String
  | "italic" => some "font-style: italic;"
  | "bold" => some "font-weight: bold;"
  | "underline" => some "text-decoration: underline;"
  | _ => none

/-- Translation of the function settingsToStatements: a for-in loop over
the style attribute object pushes declarations; foreground yields a color
declaration, background is deliberately skipped, fontStyle is split on
spaces and each recognised segment yields one declaration; the statements
are joined by single spaces. -/
def settingsToStatements (settings : List (String × String)) : String :=
  jsJoin " " (settings.flatMap (fun p =>
    match p.1 with
    | "foreground" => ["color: " ++ colorStringOf p.2 ++ ";"]
    | "background" => []
    | "fontStyle" => (jsSplit ' ' p.2).filterMap fontStyleDecl
    | _ => []))

/-- Scoped rule text pushed at line 594 of the source. -/
def scopedRuleText (sel rule statements : String) : String :=
  ".monaco-editor." ++ sel ++ " .token." ++ rule ++ " \x7b " ++ statements ++ " \x7d"

/-- Rules produced by one settings entry in the ordinary branch of the
forEach loop (lines 586 to 597): nothing unless the scope is truthy; a
string scope is split on commas, an array scope is taken as is; every piece
is trimmed and has spaces replaced by dots. -/
def scopedEntryRules (sel : String) (s : ThemeSetting) : List String :=
  if truthyScope s.scope then
    let rules := match s.scope with
      | some (Sum.inl str) => jsSplit ',' str
      | some (Sum.inr arr) => arr
      | none => []
    let statements := settingsToStatements s.settings
    rules.map (fun rule => scopedRuleText sel (jsReplaceSpaceWithDot (jsTrim rule)) statements)
  else []

/-- Editor defaults object as first assigned at lines 570 to 577: every
attribute is undefined, so every lookup misses. -/
def initialEditorSettings : List (String × String) := []

/-- Property read on a JavaScript object modelled as an association list. -/
def jsGet (obj : List (String × String)) (key : String) : Option String :=
  (obj.find? (fun p => p.1 = key)).map (fun p => p.2)

/-- Truthy property read: undefined and the empty string count as absent. -/
def jsGetTruthy (obj : List (String × String)) (key : String) : Option String :=
  match jsGet obj key with
  | none => none
  | some v => if v = "" then none else some v

/-- Whole-editor rules emitted after the scoped rules (lines 601 to 629),
conditionally on each accumulated editor-defaults attribute, in the fixed
source order. -/
def editorRules (sel : String) (es : List (String × String)) : List String :=
  (match jsGetTruthy es "background" with
   | none => []
   | some v =>
     let c := colorStringOf v
     [".monaco-editor." ++ sel ++ " .monaco-editor-background \x7b background-color: " ++ c ++ "; \x7d",
      ".monaco-editor." ++ sel ++ " .glyph-margin \x7b background-color: " ++ c ++ "; \x7d",
      "." ++ sel ++ " .monaco-workbench .monaco-editor-background \x7b background-color: " ++ c ++ "; \x7d"]) ++
  (match jsGetTruthy es "foreground" with
   | none => []
   | some v => [".monaco-editor." ++ sel ++ " .token \x7b color: " ++ colorStringOf v ++ "; \x7d"]) ++
  (match jsGetTruthy es "selection" with
   | none => []
   | some v =>
     [".monaco-editor." ++ sel ++ " .focused .selected-text \x7b background-color: " ++ colorStringOf v ++ "; \x7d",
      ".monaco-editor." ++ sel ++ " .selected-text \x7b background-color: " ++
        colorToString (colorTransparent (colorParse v) (Rat.divInt 1 2)) ++ "; \x7d"]) ++
  (match jsGetTruthy es "lineHighlight" with
   | none => []
   | some v => [".monaco-editor." ++ sel ++ " .current-line \x7b background-color: " ++ colorStringOf v ++ "; border:0; \x7d"]) ++
  (match jsGetTruthy es "caret" with
   | none => []
   | some v =>
     let c := colorStringOf v
     let opp := colorToString (colorOpposite (colorParse v))
     [".monaco-editor." ++ sel ++ " .cursor \x7b background-color: " ++ c ++ "; border-color: " ++ c ++ "; color: " ++ opp ++ "; \x7d"]) ++
  (match jsGetTruthy es "invisibles" with
   | none => []
   | some v =>
     let c := colorStringOf v
     [".monaco-editor." ++ sel ++ " .token.whitespace \x7b color: " ++ c ++ " !important; \x7d",
      ".monaco-editor." ++ sel ++ " .lines-content .cigr \x7b background: " ++ c ++ "; \x7d"])

/-- Translation of the forEach loop of processThemeObject (lines 581 to
599), with the element index made explicit: the entry at index 0 whose
scope is falsy overwrites the editor defaults record; every other entry
goes through the ordinary scoped branch. -/
def processLoop (sel : String) : Nat → List ThemeSetting → List String → List (String × String) →
    List String × List (String × String)
  | _, [], acc, ed => (acc, ed)
  | idx, s :: rest, acc, ed =>
    if idx = 0 ∧ ¬ truthyScope s.scope then
      processLoop sel (idx + 1) rest acc s.settings
    else
      processLoop sel (idx + 1) rest (acc ++ scopedEntryRules sel s) ed

/-- Translation of the function processThemeObject: scoped rules collected
in order, followed by the whole-editor rules from the accumulated defaults,
joined by line breaks. -/
def processThemeObject (themeId : String) (doc : ThemeDocument) : String :=
  let sel := themeSelector themeId
  let res := processLoop sel 0 doc.settings [] initialEditorSettings
  jsJoin "\n" (res.1 ++ editorRules sel res.2)

/-! ## Document loader (lines 541 to 564 of the source)

Reading a file and handing its bytes to the parser selected by the file
extension is collapsed into one environment function per document kind: it
returns an input-output failure, the parse diagnostics, or the parsed
value. The parsers themselves live in modules outside the reviewed sources
(vs/base/common/json and vs/base/node/plist). -/

/-- Outcome of reading and parsing one file. -/
inductive ReadResult (α : Type) where
  | ioError : ReadResult α
  | parseFail : List String → ReadResult α
  | parsed : α → ReadResult α
  deriving DecidableEq

/-- Translation of the function loadThemeDocument: json files resolve a
truthy include field recursively against their own directory and prepend
the included settings; plist files are returned as parsed. Recursion depth
is bounded by explicit fuel, whose exhaustion models the stack overflow an
include cycle would produce. -/
def loadThemeDocument (fuel : Nat) (fs : String → ReadResult ThemeDocument) (themePath : String) :
    Except String ThemeDocument :=
  match fuel with
  | 0 => Except.error "stack overflow"
  | fuel + 1 =>
    match fs themePath with
    | ReadResult.ioError => Except.error ("cannot read " ++ themePath)
    | ReadResult.parseFail ds =>
      if pathExtname themePath = ".json" then
        Except.error ("Problems parsing JSON theme file: " ++ jsJoin ", " ds)
      else
        Except.error ("Problems parsing plist file: " ++ jsJoin ", " ds)
    | ReadResult.parsed contentValue =>
      if pathExtname themePath = ".json" ∧ truthyStr contentValue.«include» then
        match loadThemeDocument fuel fs (pathJoin (pathDirname themePath) (contentValue.«include».getD "")) with
        | Except.error e => Except.error e
        | Except.ok includedValue =>
          Except.ok { contentValue with settings := includedValue.settings ++ contentValue.settings }
      else
        Except.ok contentValue

/-! ## File icons model (interfaces at lines 129 to 146 of the source) -/

/-- One icon definition: the checked iconPath attribute, none when absent. -/
structure FileIconDefinition where
  iconPath : Option String
  deriving DecidableEq

/-- One association map of a file icons document; the three maps are
association lists in document order. -/
structure FileIconsAssociation where
  folder : Option String
  file : Option String
  folderExpanded : Option String
  fileExtensions : Option (List (String × String))
  fileNames : Option (List (String × String))
  languageIds : Option (List (String × String))
  deriving DecidableEq

/-- Empty association map. -/
def emptyAssociation : FileIconsAssociation :=
  { folder := none, file := none, folderExpanded := none,
    fileExtensions := none, fileNames := none, languageIds := none }

/-- Parsed file icons document: the base association map, the icon
definitions, and the optional light and high-contrast overlays. -/
structure FileIconsDocument where
  base : FileIconsAssociation
  iconDefinitions : Option (List (String × FileIconDefinition))
  light : Option FileIconsAssociation
  highContrast : Option FileIconsAssociation
  deriving DecidableEq

/-! ## Rule compiler for file icons (lines 445 to 522 of the source) -/

/-- Lowercase hexadecimal rendering of a code point for the escape model. -/
def hexOfNat (n : Nat) : String :=
  let digits := "0123456789abcdef".data
  let rec go (m : Nat) (acc : List Char) (steps : Nat) : List Char :=
    match steps with
    | 0 => acc
    | steps + 1 => if m = 0 then acc else go (m / 16) (digits.getD (m % 16) '0' :: acc) steps
  if n = 0 then "0" else String.mk (go n [] 8)

/-- Models the browser function window.CSS.escape used by the source helper
escapeCSS, following the CSSOM serialization of an identifier: the null
character becomes the replacement character, control characters and a
leading digit (also a digit after a leading minus) become escaped code
points, a lone minus is backslash escaped, identifier characters pass
through, everything else is backslash escaped. -/
def escapeCSS (s : String) : String :=
  let cs := s.data
  String.join (List.range cs.length |>.map (fun i =>
    let c := cs.getD i ' '
    if c.toNat = 0 then String.mk [Char.ofNat 65533]
    else if c.toNat ≤ 31 ∨ c.toNat = 127 then "\\" ++ hexOfNat c.toNat ++ " "
    else if i = 0 ∧ 48 ≤ c.toNat ∧ c.toNat ≤ 57 then "\\" ++ hexOfNat c.toNat ++ " "
    else if i = 1 ∧ 48 ≤ c.toNat ∧ c.toNat ≤ 57 ∧ cs.head? = some '-' then "\\" ++ hexOfNat c.toNat ++ " "
    else if i = 0 ∧ c = '-' ∧ cs.length = 1 then "\\-"
    else if 128 ≤ c.toNat ∨ c = '-' ∨ c = '_' ∨ (48 ≤ c.toNat ∧ c.toNat ≤ 57) ∨
            (65 ≤ c.toNat ∧ c.toNat ≤ 90) ∨ (97 ≤ c.toNat ∧ c.toNat ≤ 122) then String.mk [c]
    else "\\" ++ String.mk [c]))

/-- Selector accumulator keyed by icon definition id, an association list in
first-insertion order, mirroring the plain object selectorByDefinitionId. -/
abbrev SelectorMap : Type := List (String × List String)

/-- Appends one selector to the list of one definition id, creating the
list at the end of the map on first use. -/
def appendSelector (d selector : String) : List (String × List String) → List (String × List String)
  | [] => [(d, [selector])]
  | (k, ss) :: rest =>
    if k = d then (k, ss ++ [selector]) :: rest
    else (k, ss) :: appendSelector d selector rest

/-- Translation of the inner helper addSelector: a falsy definition id is
ignored; otherwise the selector is appended to the list of that id,
creating the list on first use. -/
def addSelector (m : SelectorMap) (selector : String) (defId : Option String) : SelectorMap :=
  match defId with
  | none => m
  | some d => if d = "" then m else appendSelector d selector m

/-- Selector for one fileExtensions entry (line 474 of the source). -/
def extensionSelector (qualifier ext : String) : String :=
  qualifier ++ " ." ++ escapeCSS (jsToLower ext) ++ "-ext-file-icon.file-icon"

/-- Selector for one fileNames entry (lines 480 to 482 of the source): the
name is split into stem and extension, both lowercased. -/
def fileNameSelector (qualifier fileName : String) : String :=
  let ext := jsToLower (pathExtname fileName)
  let nm := jsToLower (jsSubstringTo fileName (jsStrLength fileName - jsStrLength (pathExtname fileName)))
  qualifier ++ " ." ++ escapeCSS nm ++ "-name-file-icon." ++ escapeCSS ext ++ "-ext-file-icon.file-icon"

/-- Selector for one languageIds entry (line 488 of the source). -/
def languageSelector (qualifier languageId : String) : String :=
  qualifier ++ " ." ++ escapeCSS languageId ++ "-lang-file-icon.file-icon"

/-- Translation of the body of collectSelectors for one association map
with its computed qualifier: folder, expanded folder and generic file
first, then the three maps in document order. -/
def collectFromAssociation (qualifier : String) (a : FileIconsAssociation) (m : SelectorMap) : SelectorMap :=
  let m := addSelector m (qualifier ++ " .folder-icon") a.folder
  let m := addSelector m (qualifier ++ " .expanded .folder-icon") a.folderExpanded
  let m := addSelector m (qualifier ++ " .file-icon") a.file
  let m := (a.fileExtensions.getD []).foldl
    (fun m p => addSelector m (extensionSelector qualifier p.1) (some p.2)) m
  let m := (a.fileNames.getD []).foldl
    (fun m p => addSelector m (fileNameSelector qualifier p.1) (some p.2)) m
  let m := (a.languageIds.getD []).foldl
    (fun m p => addSelector m (languageSelector qualifier p.1) (some p.2)) m
  m

/-- Translation of one collectSelectors call: an undefined association map
contributes nothing; the qualifier is the global icons-enabled class,
prefixed by the variant class when one is given. -/
def collectSelectors (a : Option FileIconsAssociation) (baseThemeClassName : Option String)
    (m : SelectorMap) : SelectorMap :=
  match a with
  | none => m
  | some assoc =>
    let qualifier := match baseThemeClassName with
      | none => ".show-file-icons"
      | some b => b ++ " " ++ ".show-file-icons"
    collectFromAssociation qualifier assoc m

/-- Selectors accumulated over the three passes of processFileIconsObject
(lines 493 to 495): base associations, light overlay, high-contrast overlay. -/
def collectAll (doc : FileIconsDocument) : SelectorMap :=
  collectSelectors doc.highContrast (some ".hc_black")
    (collectSelectors doc.light (some ".vs")
      (collectSelectors (some doc.base) none []))

/-- Rule text for one definition id (line 504 of the source). -/
def iconRuleText (selectors : List String) (path : String) : String :=
  jsJoin ", " selectors ++ " \x7b background-image: url(\"" ++ path ++ "\"); \x7d"

/-- Rule an accumulated definition id yields in the output phase: none when
the id is missing from iconDefinitions or its definition has no truthy
iconPath, otherwise the single rule joining all accumulated selectors. -/
def iconRuleFor (dir : String) (defs : List (String × FileIconDefinition))
    (p : String × List String) : Option String :=
  match (defs.find? (fun q => q.1 = p.1)).map (fun q => q.2) with
  | none => none
  | some definition =>
    match definition.iconPath with
    | none => none
    | some ip => if ip = "" then none else some (iconRuleText p.2 (pathJoin dir ip))

/-- Translation of the output loop of processFileIconsObject (lines 497 to
507): every accumulated definition id with an icon definition carrying a
truthy iconPath pushes one rule; the others are skipped silently. -/
def iconOutputLoop (dir : String) (defs : List (String × FileIconDefinition)) :
    SelectorMap → List String
  | [] => []
  | (defId, selectors) :: rest =>
    match (defs.find? (fun q => q.1 = defId)).map (fun q => q.2) with
    | none => iconOutputLoop dir defs rest
    | some definition =>
      match definition.iconPath with
      | none => iconOutputLoop dir defs rest
      | some ip =>
        if ip = "" then iconOutputLoop dir defs rest
        else iconRuleText selectors (pathJoin dir ip) :: iconOutputLoop dir defs rest

/-- Translation of the function processFileIconsObject: empty output when
iconDefinitions is missing, otherwise the rules of the output loop joined
by line breaks. -/
def processFileIconsObject (_id : String) (fileIconsPath : String) (doc : FileIconsDocument) : String :=
  match doc.iconDefinitions with
  | none => ""
  | some defs => jsJoin "\n" (iconOutputLoop (pathDirname fileIconsPath) defs (collectAll doc))

/-! ## Theme registry and activation (class ThemeService, lines 148 to 432)

The mutable fields of the service, the installed stylesheet slot of each
theme kind, the externally persisted preference and the telemetry marker
set are gathered into one state record. Collaborators (file reads, the
extension registry) form an environment of pure functions; window
broadcasts are returned as an explicit output list. -/

/-- Identifier constants of the source (lines 31 to 35). -/
def DEFAULT_THEME_ID : String := "vs-dark vscode-theme-defaults-themes-dark_plus-json"

/-- Default file icon contribution id (line 32 of the source). -/
def DEFAULT_FILE_ICONS : String := "vs-standard"

/-- Broadcast channel name for theme changes (line 34 of the source). -/
def THEME_CHANNEL : String := "vscode:changeTheme"

/-- Translation of the function validateThemeId: the fixed migration table
for five historical identifiers; every other id passes through unchanged. -/
def validateThemeId (theme : String) : String :=
  if theme = "vs" then "vs vscode-theme-defaults-themes-light_vs-json"
  else if theme = "vs-dark" then "vs-dark vscode-theme-defaults-themes-dark_vs-json"
  else if theme = "hc-black" then "hc-black vscode-theme-defaults-themes-hc_black-json"
  else if theme = "vs vscode-theme-colorful-defaults-themes-light_plus-tmTheme" then
    "vs vscode-theme-defaults-themes-light_plus-json"
  else if theme = "vs-dark vscode-theme-colorful-defaults-themes-dark_plus-tmTheme" then
    "vs-dark vscode-theme-defaults-themes-dark_plus-json"
  else theme

/-- One contribution record (interface IInternalThemeData): the compiled
stylesheet cache starts out unset and is filled once on first successful
compilation. -/
structure ThemeData where
  id : String
  label : String
  path : String
  extensionId : String
  styleSheetContent : Option String
  deriving DecidableEq

/-- Mutable state of the theme service together with the two installed
stylesheet slots, the persisted preference and the telemetry markers. -/
structure ServiceState where
  knownThemes : List ThemeData
  currentTheme : Option String
  container : Bool
  knownFileIconContributions : List ThemeData
  currentFileIcons : Option String
  colorThemeStyleSheet : Option String
  fileIconsStyleSheet : Option String
  storedThemePref : Option String
  themeExtensionsActivated : List String
  deriving DecidableEq

/-- Environment of external collaborators: file loads per document kind,
recursion fuel for include chains, and the extension registry lookup used
by telemetry. -/
structure Env where
  themeFs : String → ReadResult ThemeDocument
  iconFs : String → ReadResult FileIconsDocument
  fuel : Nat
  extensionKnown : String → Bool

/-- Updates the stylesheet cache of the first contribution with the given
id, as the assignment data.styleSheetContent does on the looked-up record. -/
def setCacheFirst (id css : String) : List ThemeData → List ThemeData
  | [] => []
  | t :: ts =>
    if t.id = id then { t with styleSheetContent := some css } :: ts
    else t :: setCacheFirst id css ts

/-- Translation of the onApply callback of setColorTheme (lines 231 to
248): the container class and current theme id are swapped only when a
container is registered, the preference is always stored, and either a
broadcast is emitted or first-time telemetry is recorded. -/
def onApplyColorTheme (env : Env) (st : ServiceState) (theme : ThemeData) (broadcastToAllWindows : Bool) :
    ServiceState × List (String × String) :=
  let st := if st.container then { st with currentTheme := some theme.id } else st
  let st := { st with storedThemePref := some theme.id }
  if broadcastToAllWindows then (st, [(THEME_CHANNEL, theme.id)])
  else
    if theme.extensionId ∈ st.themeExtensionsActivated then (st, [])
    else if env.extensionKnown theme.extensionId then
      ({ st with themeExtensionsActivated := st.themeExtensionsActivated ++ [theme.extensionId] }, [])
    else (st, [])

/-- Load-and-compile path of the function applyTheme (lines 530 to 538):
on success the cache is filled, the stylesheet slot is replaced and onApply
runs; on failure the state is left as it was and the rejection carries the
generic unable-to-load message. -/
def applyThemeLoad (env : Env) (st : ServiceState) (theme : ThemeData) (broadcastToAllWindows : Bool) :
    ServiceState × List (String × String) × Except String Bool :=
  match loadThemeDocument env.fuel env.themeFs theme.path with
  | Except.error _ => (st, [], Except.error ("Unable to load " ++ theme.path))
  | Except.ok themeDocument =>
    let styleSheetContent := processThemeObject theme.id themeDocument
    let st := { st with
      knownThemes := setCacheFirst theme.id styleSheetContent st.knownThemes,
      colorThemeStyleSheet := some styleSheetContent }
    let applied := onApplyColorTheme env st theme broadcastToAllWindows
    (applied.1, applied.2, Except.ok true)

/-- Translation of the function applyTheme (lines 524 to 539): a truthy
cached stylesheet is installed without any load; otherwise the document is
loaded and compiled. -/
def applyTheme (env : Env) (st : ServiceState) (theme : ThemeData) (broadcastToAllWindows : Bool) :
    ServiceState × List (String × String) × Except String Bool :=
  match theme.styleSheetContent with
  | some css =>
    if css = "" then applyThemeLoad env st theme broadcastToAllWindows
    else
      let st := { st with colorThemeStyleSheet := some css }
      let applied := onApplyColorTheme env st theme broadcastToAllWindows
      (applied.1, applied.2, Except.ok true)
  | none => applyThemeLoad env st theme broadcastToAllWindows

/-- Translation of the method findThemeData (lines 257 to 271): the first
contribution with the requested id, else the first with the default id,
else none. -/
def findThemeData (knownThemes : List ThemeData) (themeId : String) (defaultId : String) :
    Option ThemeData :=
  match knownThemes.find? (fun t => t.id = themeId) with
  | some t => some t
  | none => knownThemes.find? (fun t => t.id = defaultId)

/-- Translation of the method setColorTheme (lines 218 to 251): a falsy id
fails immediately; the currently active id short-circuits to success,
re-broadcasting when asked to; otherwise the id is migrated, looked up with
the default as fallback, and applied. -/
def setColorTheme (env : Env) (st : ServiceState) (themeId : String) (broadcastToAllWindows : Bool) :
    ServiceState × List (String × String) × Except String Bool :=
  if themeId = "" then (st, [], Except.ok false)
  else if st.currentTheme = some themeId then
    (st, if broadcastToAllWindows then [(THEME_CHANNEL, themeId)] else [], Except.ok true)
  else
    match findThemeData st.knownThemes (validateThemeId themeId) DEFAULT_THEME_ID with
    | none => (st, [], Except.ok false)
    | some theme => applyTheme env st theme broadcastToAllWindows

/-- Load-and-compile path of the function applyFileIcons (lines 424 to
431): on success the cache is filled and the icon stylesheet slot is
replaced; on failure the state is left as it was. -/
def applyFileIconsLoad (env : Env) (st : ServiceState) (data : ThemeData) :
    ServiceState × Except String Bool :=
  match env.iconFs data.path with
  | ReadResult.parsed fileIconsDocument =>
    let styleSheetContent := processFileIconsObject data.id data.path fileIconsDocument
    ({ st with
       knownFileIconContributions := setCacheFirst data.id styleSheetContent st.knownFileIconContributions,
       fileIconsStyleSheet := some styleSheetContent }, Except.ok true)
  | _ => (st, Except.error ("Unable to load " ++ data.path))

/-- Translation of the function applyFileIcons (lines 419 to 432): a
truthy cached stylesheet is installed without any load; otherwise the
document is loaded and compiled. -/
def applyFileIcons (env : Env) (st : ServiceState) (data : ThemeData) :
    ServiceState × Except String Bool :=
  match data.styleSheetContent with
  | some css =>
    if css = "" then applyFileIconsLoad env st data
    else ({ st with fileIconsStyleSheet := some css }, Except.ok true)
  | none => applyFileIconsLoad env st data

/-- Translation of the lookup loop of updateFileIcons (lines 400 to 410):
the first contribution matching the current selection wins and stops the
loop; otherwise the last contribution matching the default id seen so far
is remembered. -/
def findIconSet (cur : Option String) : List ThemeData → Option ThemeData → Option ThemeData
  | [], acc => acc
  | t :: rest, acc =>
    if some t.id = cur then some t
    else findIconSet cur rest (if t.id = DEFAULT_FILE_ICONS then some t else acc)

/-- Translation of the method updateFileIcons (lines 399 to 416). -/
def updateFileIcons (env : Env) (st : ServiceState) : ServiceState × Except String Bool :=
  match findIconSet st.currentFileIcons st.knownFileIconContributions none with
  | some iconSetData => applyFileIcons env st iconSetData
  | none => (st, Except.ok false)

/-- Translation of the method setFileIcons (lines 391 to 397): a changed
selection is stored into the current-file-icons field before any load is
attempted, then the update runs; an unchanged selection is a successful
no-op. -/
def setFileIcons (env : Env) (st : ServiceState) (fileIcons : Option String) :
    ServiceState × Except String Bool :=
  if fileIcons ≠ st.currentFileIcons then
    updateFileIcons env { st with currentFileIcons := fileIcons }
  else (st, Except.ok true)

/-! ## Concrete documents, states and environments used to evaluate the
definitions on closed inputs -/

/-- Scoped keyword entry of the including test document. -/
def settingA : ThemeSetting :=
  { name := none, scope := some (Sum.inl "keyword"), settings := [("fontStyle", "bold")] }

/-- Scoped comment entry of the included test document. -/
def settingB : ThemeSetting :=
  { name := none, scope := some (Sum.inl "comment"), settings := [("fontStyle", "italic")] }

/-- Test document that includes another document. -/
def docIncluding : ThemeDocument :=
  { name := "A", «include» := some "B.json", settings := [settingA] }

/-- Test document referenced through the include field. -/
def docIncluded : ThemeDocument :=
  { name := "B", «include» := none, settings := [settingB] }

/-- File system with the two include-chain documents. -/
def fsInclude : String → ReadResult ThemeDocument := fun p =>
  if p = "/themes/A.json" then ReadResult.parsed docIncluding
  else if p = "/themes/B.json" then ReadResult.parsed docIncluded
  else ReadResult.ioError

/-- Icon document with one extension-less file name association. -/
def docMakefile : FileIconsDocument :=
  { base := { emptyAssociation with fileNames := some [("Makefile", "defA")] },
    iconDefinitions := some [("defA", { iconPath := some "image.png" })],
    light := none, highContrast := none }

/-- Icon definition list of the output-phase test document. -/
def iconDefsW : List (String × FileIconDefinition) :=
  [("defFile", { iconPath := some "f.png" }),
   ("defTs", { iconPath := some "ts.png" }),
   ("defNoPath", { iconPath := none })]

/-- Icon document exercising the output phase: one id with several
selectors, one id missing from the definitions, one definition without an
icon path. -/
def docIconsW : FileIconsDocument :=
  { base := { emptyAssociation with
      file := some "defFile",
      fileExtensions := some [("TS", "defTs"), ("md", "defMissing")],
      fileNames := some [("Makefile", "defNoPath")] },
    iconDefinitions := some iconDefsW,
    light := some { emptyAssociation with folder := some "defFile" },
    highContrast := none }

/-- Environment whose reads all fail. -/
def envFail : Env :=
  { themeFs := fun _ => ReadResult.ioError, iconFs := fun _ => ReadResult.ioError,
    fuel := 3, extensionKnown := fun _ => false }

/-- Contribution whose theme document cannot be read. -/
def contribBroken : ThemeData :=
  { id := "theme.broken", label := "B", path := "/themes/broken.json",
    extensionId := "extB", styleSheetContent := none }

/-- State about to activate a color theme whose document cannot be read. -/
def stColorFail : ServiceState :=
  { knownThemes := [contribBroken],
    currentTheme := some "theme.old", container := true,
    knownFileIconContributions := [], currentFileIcons := none,
    colorThemeStyleSheet := some "old-css", fileIconsStyleSheet := none,
    storedThemePref := some "theme.old", themeExtensionsActivated := [] }

/-- Contribution whose icon document cannot be read. -/
def contribNewIcons : ThemeData :=
  { id := "new", label := "N", path := "/icons/new.json",
    extensionId := "extI", styleSheetContent := none }

/-- State about to activate a file icon set whose document cannot be read. -/
def stIconsFail : ServiceState :=
  { knownThemes := [], currentTheme := none, container := true,
    knownFileIconContributions := [contribNewIcons],
    currentFileIcons := some "old", colorThemeStyleSheet := none,
    fileIconsStyleSheet := some "old-icon-css", storedThemePref := none,
    themeExtensionsActivated := [] }

/-- Environment carrying one loadable theme document for the migration run. -/
def envMigration : Env :=
  { themeFs := fun p =>
      if p = "/themes/light_vs.json" then
        ReadResult.parsed { name := "Light", «include» := none, settings := [] }
      else ReadResult.ioError,
    iconFs := fun _ => ReadResult.ioError, fuel := 3, extensionKnown := fun _ => false }

/-- Contribution registered under the migrated form of the legacy id vs. -/
def contribLightVs : ThemeData :=
  { id := "vs vscode-theme-defaults-themes-light_vs-json", label := "Light",
    path := "/themes/light_vs.json", extensionId := "vscode-theme-defaults",
    styleSheetContent := none }

/-- State knowing only the migrated form of the legacy id vs. -/
def stMigration : ServiceState :=
  { knownThemes := [contribLightVs],
    currentTheme := none, container := true,
    knownFileIconContributions := [], currentFileIcons := none,
    colorThemeStyleSheet := none, fileIconsStyleSheet := none,
    storedThemePref := none, themeExtensionsActivated := [] }

/-- State with no contributions at all. -/
def stEmpty : ServiceState :=
  { knownThemes := [], currentTheme := none, container := false,
    knownFileIconContributions := [], currentFileIcons := none,
    colorThemeStyleSheet := none, fileIconsStyleSheet := none,
    storedThemePref := none, themeExtensionsActivated := [] }

/-- State whose active color theme is already the one requested again. -/
def stCurrent : ServiceState :=
  { knownThemes := [], currentTheme := some "theme.current", container := true,
    knownFileIconContributions := [], currentFileIcons := none,
    colorThemeStyleSheet := some "css", fileIconsStyleSheet := none,
    storedThemePref := some "theme.current", themeExtensionsActivated := [] }

/-! ## Helper lemmas on the JavaScript string primitives -/

theorem strData_append (a b : String) : (a ++ b).data = a.data ++ b.data := by
  cases a; cases b; rfl

theorem strMk_data (s : String) : String.mk s.data = s := by
  cases s; rfl

theorem jsSplitChar_shape (sep : Char) (l : List Char) :
    ∃ p ps, jsSplitChar sep l = p :: ps := by
  induction l with
  | nil => exact ⟨[], [], rfl⟩
  | cons c cs ih =>
    obtain ⟨p, ps, h⟩ := ih
    by_cases hc : c = sep
    · exact ⟨[], jsSplitChar sep cs, by simp [jsSplitChar, hc]⟩
    · exact ⟨c :: p, ps, by simp [jsSplitChar, hc, h]⟩

theorem jsSplitChar_cons_ne (sep c : Char) (l : List Char) (p : List Char) (ps : List (List Char))
    (hc : c ≠ sep) (h : jsSplitChar sep l = p :: ps) :
    jsSplitChar sep (c :: l) = (c :: p) :: ps := by
  simp [jsSplitChar, hc, h]

theorem jsSplitChar_no_sep (sep : Char) : ∀ l : List Char, sep ∉ l → jsSplitChar sep l = [l] := by
  intro l
  induction l with
  | nil => intro _; rfl
  | cons c cs ih =>
    intro h
    have hc : c ≠ sep := fun he => h (he ▸ List.mem_cons_self c cs)
    have hcs := ih (fun hm => h (List.mem_cons_of_mem c hm))
    simp [jsSplitChar, hc, hcs]

theorem jsSplitChar_append (sep : Char) (r : List Char) :
    ∀ l : List Char, sep ∉ l → jsSplitChar sep (l ++ sep :: r) = l :: jsSplitChar sep r := by
  intro l
  induction l with
  | nil => intro _; simp [jsSplitChar]
  | cons c cs ih =>
    intro h
    have hc : c ≠ sep := fun he => h (he ▸ List.mem_cons_self c cs)
    have hcs := ih (fun hm => h (List.mem_cons_of_mem c hm))
    simp only [List.cons_append]
    exact jsSplitChar_cons_ne sep c (cs ++ sep :: r) cs (jsSplitChar sep r) hc hcs

theorem jsSplit_singleton (sep : Char) (s : String) (h : sep ∉ s.data) :
    jsSplit sep s = [s] := by
  simp [jsSplit, jsSplitChar_no_sep sep s.data h, strMk_data]

theorem jsJoin_cons_cons (sep : String) (x y : String) (xs : List String) :
    jsJoin sep (x :: y :: xs) = x ++ sep ++ jsJoin sep (y :: xs) := rfl

theorem space_append_data (x : String) : (" " ++ x).data = ' ' :: x.data := by
  rw [strData_append]
  rfl

theorem jsSplit_join_single (c : Char) :
    ∀ (ts : List String) (t : String), c ∉ t.data → (∀ x ∈ ts, c ∉ x.data) →
      jsSplit c (jsJoin (String.mk [c]) (t :: ts)) = t :: ts := by
  intro ts
  induction ts with
  | nil => intro t ht _; exact jsSplit_singleton c t ht
  | cons y ys ih =>
    intro t ht hts
    have hy : c ∉ y.data := hts y (List.mem_cons_self y ys)
    have hys : ∀ x ∈ ys, c ∉ x.data := fun x hx => hts x (List.mem_cons_of_mem y hx)
    have ihy := ih y hy hys
    rw [jsJoin_cons_cons]
    have hdata : (t ++ String.mk [c] ++ jsJoin (String.mk [c]) (y :: ys)).data =
        t.data ++ c :: (jsJoin (String.mk [c]) (y :: ys)).data := by
      rw [strData_append, strData_append, List.append_assoc]
      rfl
    simp only [jsSplit, hdata, jsSplitChar_append c _ t.data ht]
    have hmapped : (jsSplitChar c (jsJoin (String.mk [c]) (y :: ys)).data).map String.mk = y :: ys := ihy
    simp [hmapped, strMk_data]

theorem jsTrim_space_cons (x : String) : jsTrim (" " ++ x) = jsTrim x := by
  simp [jsTrim, space_append_data, List.dropWhile]
  rfl

theorem jsSplit_join_comma :
    ∀ (ts : List String) (t : String), ',' ∉ t.data → (∀ x ∈ ts, ',' ∉ x.data) →
      jsSplit ',' (jsJoin ", " (t :: ts)) = t :: ts.map (fun x => " " ++ x) := by
  intro ts
  induction ts with
  | nil => intro t ht _; simpa using jsSplit_singleton ',' t ht
  | cons y ys ih =>
    intro t ht hts
    have hy : ',' ∉ y.data := hts y (List.mem_cons_self y ys)
    have hys : ∀ x ∈ ys, ',' ∉ x.data := fun x hx => hts x (List.mem_cons_of_mem y hx)
    have ihy := ih y hy hys
    rw [jsJoin_cons_cons]
    have hdata : (t ++ ", " ++ jsJoin ", " (y :: ys)).data =
        t.data ++ ',' :: (' ' :: (jsJoin ", " (y :: ys)).data) := by
      rw [strData_append, strData_append, List.append_assoc]
      rfl
    obtain ⟨p, ps, hshape⟩ := jsSplitChar_shape ',' (jsJoin ", " (y :: ys)).data
    have hcons := jsSplitChar_cons_ne ',' ' ' (jsJoin ", " (y :: ys)).data p ps (by decide) hshape
    have hmapped : (jsSplitChar ',' (jsJoin ", " (y :: ys)).data).map String.mk = y :: ys.map (fun x => " " ++ x) := ihy
    rw [hshape] at hmapped
    simp only [List.map_cons, List.cons.injEq] at hmapped
    have hp : p = y.data := by
      have hd := congrArg String.data hmapped.1
      simpa using hd
    have hsp : String.mk (' ' :: p) = " " ++ y := by
      rw [hp, ← space_append_data, strMk_data]
    simp only [jsSplit, hdata, jsSplitChar_append ',' _ t.data ht, hcons, List.map_cons,
      strMk_data, hsp, hmapped.2]

/-! ## Claim C4: Color.parse -/

/-- C4 counterexample: the string with a number sign and seven hexadecimal
digits has neither the six-digit nor the eight-digit accepted length, yet
Color.parse returns its first three byte pairs with alpha one instead of
the red sentinel, so a wrong-length input does not yield the sentinel. -/
theorem c4_color_parse_counterexample :
    jsStrLength "#1234567" ≠ 7 ∧ jsStrLength "#1234567" ≠ 9 ∧
    colorParse "#1234567" = { r := some 18, g := some 52, b := some 86, a := some 1 } ∧
    colorParse "#1234567" ≠ { r := some 255, g := some 0, b := some 0, a := some 1 } := by
  refine ⟨by decide, by decide, by decide, by decide⟩

/-- C4 amended: Color.parse accepts the six-digit form with alpha one and
the eight-digit form with alpha equal to the last byte divided by 255; an
input that does not start with a number sign or is shorter than seven
characters yields the sentinel color of red 255, green 0, blue 0, alpha 1;
but every other input starting with a number sign and at least seven
characters long is parsed positionally: a length other than nine gives
alpha one, and malformed hexadecimal pairs give NaN channels rather than
the sentinel. -/
theorem c4_color_parse_amended :
    (∀ s : String, ¬ (jsCharAt0 s = some '#' ∧ 7 ≤ jsStrLength s) →
      colorParse s = { r := some 255, g := some 0, b := some 0, a := some 1 }) ∧
    (∀ s : String, jsCharAt0 s = some '#' → 7 ≤ jsStrLength s → jsStrLength s ≠ 9 →
      (colorParse s).a = some 1) ∧
    (∀ s : String, jsCharAt0 s = some '#' → jsStrLength s = 9 →
      (colorParse s).a = (jsParseHexString (jsSubstr s 7 2)).map (fun n => Rat.divInt n 255)) ∧
    colorParse "#000000" = { r := some 0, g := some 0, b := some 0, a := some 1 } ∧
    colorParse "#FFFFFF80" = { r := some 255, g := some 255, b := some 255, a := some (Rat.divInt 128 255) } ∧
    colorParse "bogus" = { r := some 255, g := some 0, b := some 0, a := some 1 } ∧
    colorParse "#gggggg" = { r := none, g := none, b := none, a := some 1 } := by
  refine ⟨?_, ?_, ?_, by decide, by decide, by decide, by decide⟩
  · intro s h
    rw [colorParse, if_neg h]
  · intro s h1 h2 h3
    rw [colorParse, if_pos ⟨h1, h2⟩]
    simp [h3]
  · intro s h1 h2
    rw [colorParse, if_pos ⟨h1, by rw [h2]; decide⟩]
    simp [h2]

/-- C4 witness: the amended branches evaluated at a short input, at an
eight-character input and at the nine-character input. -/
theorem c4_color_parse_amended_witness :
    colorParse "zz" = { r := some 255, g := some 0, b := some 0, a := some 1 } ∧
    (colorParse "#1234567").a = some 1 ∧
    (colorParse "#FFFFFF80").a = (jsParseHexString (jsSubstr "#FFFFFF80" 7 2)).map (fun n => Rat.divInt n 255) :=
  ⟨c4_color_parse_amended.1 "zz" (by decide),
   c4_color_parse_amended.2.1 "#1234567" (by decide) (by decide) (by decide),
   c4_color_parse_amended.2.2.1 "#FFFFFF80" (by decide) (by decide)⟩

/-! ## Claim C2: scope strings versus scope arrays -/

/-- C2: for an entry with both scope and settings present, a comma
separated scope string produces exactly the rule set of the scope array of
the same tokens, and one token with an internal space compiles to a single
rule whose class is the compound of its words joined by dots. -/
theorem c2_scope_string_array_equiv :
    (∀ (sel : String) (ts : List String) (stg : List (String × String)),
      ts ≠ [] → (∀ t ∈ ts, ',' ∉ t.data) → jsJoin ", " ts ≠ "" →
      scopedEntryRules sel { name := none, scope := some (Sum.inl (jsJoin ", " ts)), settings := stg } =
        scopedEntryRules sel { name := none, scope := some (Sum.inr ts), settings := stg }) ∧
    (∀ (sel : String) (stg : List (String × String)),
      scopedEntryRules sel { name := none, scope := some (Sum.inl "string quoted"), settings := stg } =
        [scopedRuleText sel "string.quoted" (settingsToStatements stg)]) := by
  constructor
  · intro sel ts stg hne hcs hjoin
    obtain ⟨t, ts, rfl⟩ := List.exists_cons_of_ne_nil hne
    have ht : ',' ∉ t.data := hcs t (List.mem_cons_self t ts)
    have hts : ∀ x ∈ ts, ',' ∉ x.data := fun x hx => hcs x (List.mem_cons_of_mem t hx)
    simp only [scopedEntryRules, truthyScope, hjoin, ne_eq, not_false_eq_true,
      jsSplit_join_comma ts t ht hts, List.map_cons, List.map_map]
    simp [Function.comp, jsTrim_space_cons]
  · intro sel stg
    have h1 : jsSplit ',' "string quoted" = ["string quoted"] := by decide
    have h2 : jsReplaceSpaceWithDot (jsTrim "string quoted") = "string.quoted" := by decide
    simp [scopedEntryRules, truthyScope, h1, h2]

/-- C2 witness: the equivalence applied to the two-token example scope. -/
theorem c2_scope_witness :
    scopedEntryRules "vs.mytheme"
        { name := none, scope := some (Sum.inl (jsJoin ", " ["string", "string.quoted"])),
          settings := [("fontStyle", "bold")] } =
      scopedEntryRules "vs.mytheme"
        { name := none, scope := some (Sum.inr ["string", "string.quoted"]),
          settings := [("fontStyle", "bold")] } :=
  c2_scope_string_array_equiv.1 "vs.mytheme" ["string", "string.quoted"] [("fontStyle", "bold")]
    (by decide) (by decide) (by decide)

/-! ## Claim C3: the entry at index 0 -/

theorem processLoop_pos (sel : String) :
    ∀ (es : List ThemeSetting) (j : Nat) (acc : List String) (ed : List (String × String)),
      processLoop sel (j + 1) es acc ed = (acc ++ es.flatMap (scopedEntryRules sel), ed) := by
  intro es
  induction es with
  | nil => intro j acc ed; simp [processLoop]
  | cons s rest ih =>
    intro j acc ed
    have hcond : ¬ ((j + 1 = 0) ∧ ¬ truthyScope s.scope = true) := by
      intro hc
      exact Nat.succ_ne_zero j hc.1
    simp only [processLoop, if_neg hcond]
    rw [ih (j + 1)]
    simp [List.append_assoc]

/-- C3: when compiling a theme document, the entry at index 0 is consumed
as the editor defaults record, producing no scoped rule, exactly when its
scope is falsy; an index 0 entry with a truthy scope goes through the
ordinary scoped branch like every other entry and the defaults record stays
in its initial all-undefined form. -/
theorem c3_index0_defaults_iff_no_scope (themeId nm : String) (inc : Option String)
    (e : ThemeSetting) (rest : List ThemeSetting) :
    processThemeObject themeId { name := nm, «include» := inc, settings := e :: rest } =
      jsJoin "\n"
        ((if truthyScope e.scope then scopedEntryRules (themeSelector themeId) e else []) ++
          rest.flatMap (scopedEntryRules (themeSelector themeId)) ++
          editorRules (themeSelector themeId)
            (if truthyScope e.scope then initialEditorSettings else e.settings)) := by
  by_cases h : truthyScope e.scope
  · have hcond : ¬ (((0 : Nat) = 0) ∧ ¬ truthyScope e.scope = true) := by simp [h]
    simp only [processThemeObject, processLoop, if_neg hcond,
      processLoop_pos (themeSelector themeId) rest 0]
    simp [h, List.append_assoc]
  · have hcond : (((0 : Nat) = 0) ∧ ¬ truthyScope e.scope = true) := ⟨rfl, by simp [h]⟩
    simp only [processThemeObject, processLoop, if_pos hcond,
      processLoop_pos (themeSelector themeId) rest 0]
    simp [h]

/-! ## Claim C5: fontStyle translation -/

/-- C5 counterexample: the two fontStyle tokens bold and italic separated
by a tab, a whitespace character, produce no declaration at all, because
the source splits the attribute on the space character only. -/
theorem c5_fontstyle_counterexample :
    settingsToStatements [("fontStyle", "bold\titalic")] = "" ∧
    settingsToStatements [("fontStyle", "bold\titalic")] ≠
      "font-weight: bold; font-style: italic;" := by
  exact ⟨by decide, by decide⟩

/-- C5 amended: each token of the fontStyle attribute separated by the
space character contributes exactly one declaration, font-style for italic,
font-weight for bold, text-decoration for underline, in the order the
tokens appear, and unrecognised tokens contribute nothing; tokens separated
by other whitespace characters are not recognised. -/
theorem c5_fontstyle_amended :
    (∀ toks : List String, toks ≠ [] → (∀ t ∈ toks, ' ' ∉ t.data) →
      settingsToStatements [("fontStyle", jsJoin " " toks)] =
        jsJoin " " (toks.filterMap fontStyleDecl)) ∧
    settingsToStatements [("fontStyle", "bold italic")] =
      "font-weight: bold; font-style: italic;" := by
  constructor
  · intro toks hne hsp
    obtain ⟨t, ts, rfl⟩ := List.exists_cons_of_ne_nil hne
    have ht : ' ' ∉ t.data := hsp t (List.mem_cons_self t ts)
    have hts : ∀ x ∈ ts, ' ' ∉ x.data := fun x hx => hsp x (List.mem_cons_of_mem t hx)
    have hone : (" " : String) = String.mk [' '] := rfl
    simp only [settingsToStatements, List.flatMap_cons, List.flatMap_nil, List.append_nil,
      hone, jsSplit_join_single ' ' ts t ht hts]
  · decide

/-- C5 witness: the amended statement applied to the bold italic example. -/
theorem c5_fontstyle_amended_witness :
    settingsToStatements [("fontStyle", jsJoin " " ["bold", "italic"])] =
      jsJoin " " (["bold", "italic"].filterMap fontStyleDecl) :=
  c5_fontstyle_amended.1 ["bold", "italic"] (by decide) (by decide)

/-! ## Claim C1: include chain resolution -/

theorem loadThemeDocument_parsed (fuel : Nat) (fs : String → ReadResult ThemeDocument)
    (path : String) (doc : ThemeDocument) (h : fs path = ReadResult.parsed doc) :
    loadThemeDocument (fuel + 1) fs path =
      if pathExtname path = ".json" ∧ truthyStr doc.«include» then
        match loadThemeDocument fuel fs (pathJoin (pathDirname path) (doc.«include».getD "")) with
        | Except.error e => Except.error e
        | Except.ok includedValue =>
          Except.ok { doc with settings := includedValue.settings ++ doc.settings }
      else Except.ok doc := by
  conv_lhs => rw [loadThemeDocument]
  rw [h]

/-- C1: loading a json theme document whose include field is a non-empty
string loads the document at the include path resolved against the
including document directory and prepends the included settings to the own
settings, and the result compiles exactly as a plain document carrying the
concatenated settings list. -/
theorem c1_include_chain (fuel : Nat) (fs : String → ReadResult ThemeDocument) (pathA : String)
    (docA docB : ThemeDocument) (inc : String)
    (hext : pathExtname pathA = ".json")
    (hA : fs pathA = ReadResult.parsed docA)
    (hinc : docA.«include» = some inc) (hne : inc ≠ "")
    (hB : fs (pathJoin (pathDirname pathA) inc) = ReadResult.parsed docB)
    (hBinc : truthyStr docB.«include» = false) :
    loadThemeDocument (fuel + 2) fs pathA =
      Except.ok { docA with settings := docB.settings ++ docA.settings } ∧
    ∀ themeId,
      processThemeObject themeId { docA with settings := docB.settings ++ docA.settings } =
        processThemeObject themeId
          { name := docA.name, «include» := none, settings := docB.settings ++ docA.settings } := by
  constructor
  · have htr : truthyStr docA.«include» = true := by
      rw [hinc]
      simp [truthyStr, hne]
    have hcondB : ¬ (pathExtname (pathJoin (pathDirname pathA) inc) = ".json" ∧
        truthyStr docB.«include» = true) := by
      rw [hBinc]
      simp
    rw [loadThemeDocument_parsed (fuel + 1) fs pathA docA hA, if_pos ⟨hext, htr⟩, hinc]
    rw [show (some inc).getD "" = inc from rfl]
    rw [loadThemeDocument_parsed fuel fs (pathJoin (pathDirname pathA) inc) docB hB,
      if_neg hcondB]
  · intro themeId
    rfl

/-- C1 witness: the include chain evaluated on the concrete two-document
file system. -/
theorem c1_include_chain_witness :
    loadThemeDocument 2 fsInclude "/themes/A.json" =
      Except.ok { docIncluding with settings := docIncluded.settings ++ docIncluding.settings } :=
  (c1_include_chain 0 fsInclude "/themes/A.json" docIncluding docIncluded "B.json"
    (by decide) (by decide) (by decide) (by decide) (by decide) (by decide)).1

/-! ## Claim C6: extension-less file names -/

theorem strEq_of_data (a b : String) (h : a.data = b.data) : a = b := by
  cases a
  cases b
  exact congrArg String.mk h

theorem listTakeWhileAll {α : Type} (p : α → Bool) :
    ∀ l : List α, (∀ a ∈ l, p a = true) → l.takeWhile p = l := by
  intro l
  induction l with
  | nil => intro _; rfl
  | cons a rest ih =>
    intro h
    rw [List.takeWhile_cons, if_pos (h a (List.mem_cons_self a rest))]
    rw [ih (fun x hx => h x (List.mem_cons_of_mem a hx))]

theorem pathBasename_no_slash (p : String) (h : '/' ∉ p.data) : pathBasename p = p := by
  have hall : ∀ a ∈ p.data.reverse, (decide (a ≠ '/')) = true := by
    intro a ha
    have : a ∈ p.data := List.mem_reverse.mp ha
    simp only [decide_eq_true_eq]
    intro he
    exact h (he ▸ this)
  simp only [pathBasename, listTakeWhileAll _ p.data.reverse hall, List.reverse_reverse,
    strMk_data]

theorem pathExtname_no_dot (p : String) (h1 : '/' ∉ p.data) (h2 : '.' ∉ p.data) :
    pathExtname p = "" := by
  simp only [pathExtname, pathBasename_no_slash p h1]
  rw [if_neg h2]

/-- C6: a fileNames association key without an extension produces the
selector built from the lowercased name, the empty-string extension token
and the file icon class; evaluated concretely, the Makefile association
yields the selector classes makefile-name-file-icon, -ext-file-icon and
file-icon inside the generated rule. -/
theorem c6_filename_without_extension :
    (∀ (qualifier fileName : String), '.' ∉ fileName.data → '/' ∉ fileName.data →
      fileNameSelector qualifier fileName =
        qualifier ++ " ." ++ escapeCSS (jsToLower fileName) ++
          "-name-file-icon.-ext-file-icon.file-icon") ∧
    processFileIconsObject "ic" "/base/icons.json" docMakefile =
      ".show-file-icons .makefile-name-file-icon.-ext-file-icon.file-icon \x7b background-image: url(\"/base/image.png\"); \x7d" := by
  constructor
  · intro qualifier fileName hdot hslash
    have hext0 : pathExtname fileName = "" := pathExtname_no_dot fileName hslash hdot
    simp only [fileNameSelector, hext0]
    rw [show jsToLower "" = "" from rfl, show escapeCSS "" = "" from rfl]
    have hsub : jsSubstringTo fileName (jsStrLength fileName - jsStrLength "") = fileName := by
      simp only [jsSubstringTo, jsStrLength, show ("" : String).data = [] from rfl,
        List.length_nil, Nat.sub_zero, List.take_length, strMk_data]
    rw [hsub]
    apply strEq_of_data
    simp only [strData_append, List.append_assoc, show ("" : String).data = [] from rfl,
      List.nil_append]
    rw [show "-name-file-icon.".data ++ "-ext-file-icon.file-icon".data =
      "-name-file-icon.-ext-file-icon.file-icon".data from by decide]
  · decide

/-- C6 witness: the extension-less selector shape applied to the Makefile
file name. -/
theorem c6_filename_without_extension_witness :
    fileNameSelector ".show-file-icons" "Makefile" =
      ".show-file-icons" ++ " ." ++ escapeCSS (jsToLower "Makefile") ++
        "-name-file-icon.-ext-file-icon.file-icon" :=
  c6_filename_without_extension.1 ".show-file-icons" "Makefile" (by decide) (by decide)

/-! ## Claim C7: the output phase of the file icon compiler -/

theorem appendSelector_fst (d sel : String) :
    ∀ m : List (String × List String),
      (appendSelector d sel m).map Prod.fst =
        if d ∈ m.map Prod.fst then m.map Prod.fst else m.map Prod.fst ++ [d] := by
  intro m
  induction m with
  | nil => simp [appendSelector]
  | cons kv rest ih =>
    obtain ⟨k, ss⟩ := kv
    by_cases hk : k = d
    · subst hk
      simp [appendSelector]
    · rw [show appendSelector d sel ((k, ss) :: rest) = (k, ss) :: appendSelector d sel rest from
        by simp [appendSelector, hk]]
      rw [List.map_cons, ih]
      by_cases hd : d ∈ rest.map Prod.fst
      · have houter : d ∈ ((k, ss) :: rest).map Prod.fst := by simp [hd]
        rw [if_pos hd, if_pos houter]
        simp
      · have houter : d ∉ ((k, ss) :: rest).map Prod.fst := by
          simp only [List.map_cons, List.mem_cons]
          rintro (he | hm)
          · exact hk he.symm
          · exact hd hm
        rw [if_neg hd, if_neg houter, List.map_cons, List.cons_append]

theorem appendSelector_snd (d sel : String) :
    ∀ m : List (String × List String), (∀ p ∈ m, p.2 ≠ []) →
      ∀ p ∈ appendSelector d sel m, p.2 ≠ [] := by
  intro m
  induction m with
  | nil =>
    intro _ p hp
    rw [show appendSelector d sel [] = [(d, [sel])] from rfl] at hp
    have h1 : p = (d, [sel]) := List.mem_singleton.mp hp
    rw [h1]
    simp
  | cons kv rest ih =>
    obtain ⟨k, ss⟩ := kv
    intro h p hp
    by_cases hk : k = d
    · rw [show appendSelector d sel ((k, ss) :: rest) = (k, ss ++ [sel]) :: rest from
        by simp [appendSelector, hk]] at hp
      rcases List.mem_cons.mp hp with h1 | h1
      · rw [h1]
        simp
      · exact h p (List.mem_cons_of_mem _ h1)
    · rw [show appendSelector d sel ((k, ss) :: rest) = (k, ss) :: appendSelector d sel rest from
        by simp [appendSelector, hk]] at hp
      rcases List.mem_cons.mp hp with h1 | h1
      · rw [h1]
        exact h (k, ss) (List.mem_cons_self _ _)
      · exact ih (fun q hq => h q (List.mem_cons_of_mem _ hq)) p h1

theorem addSelector_invariant (m : SelectorMap) (sel : String) (did : Option String)
    (h1 : (m.map Prod.fst).Nodup) (h2 : ∀ p ∈ m, p.2 ≠ []) :
    ((addSelector m sel did).map Prod.fst).Nodup ∧ ∀ p ∈ addSelector m sel did, p.2 ≠ [] := by
  match did with
  | none => exact ⟨h1, h2⟩
  | some d =>
    by_cases hd : d = ""
    · simp only [addSelector, if_pos hd]
      exact ⟨h1, h2⟩
    · have hrw : addSelector m sel (some d) = appendSelector d sel m := by
        simp [addSelector, hd]
      rw [hrw]
      constructor
      · rw [appendSelector_fst]
        by_cases hmem : d ∈ m.map Prod.fst
        · rw [if_pos hmem]
          exact h1
        · rw [if_neg hmem]
          simp [List.nodup_append, h1, hmem]
      · exact appendSelector_snd d sel m h2

theorem foldl_addSelector_invariant (sb : String × String → String) :
    ∀ (l : List (String × String)) (m : SelectorMap),
      (m.map Prod.fst).Nodup → (∀ p ∈ m, p.2 ≠ []) →
      (((l.foldl (fun m p => addSelector m (sb p) (some p.2)) m).map Prod.fst).Nodup ∧
        ∀ p ∈ l.foldl (fun m p => addSelector m (sb p) (some p.2)) m, p.2 ≠ []) := by
  intro l
  induction l with
  | nil => intro m h1 h2; exact ⟨h1, h2⟩
  | cons a rest ih =>
    intro m h1 h2
    obtain ⟨hn1, hn2⟩ := addSelector_invariant m (sb a) (some a.2) h1 h2
    simpa only [List.foldl_cons] using ih _ hn1 hn2

theorem collectFromAssociation_invariant (q : String) (a : FileIconsAssociation)
    (m : SelectorMap) (h1 : (m.map Prod.fst).Nodup) (h2 : ∀ p ∈ m, p.2 ≠ []) :
    (((collectFromAssociation q a m).map Prod.fst).Nodup ∧
      ∀ p ∈ collectFromAssociation q a m, p.2 ≠ []) := by
  have t1 := addSelector_invariant m (q ++ " .folder-icon") a.folder h1 h2
  have t2 := addSelector_invariant _ (q ++ " .expanded .folder-icon") a.folderExpanded t1.1 t1.2
  have t3 := addSelector_invariant _ (q ++ " .file-icon") a.file t2.1 t2.2
  have t4 := foldl_addSelector_invariant (fun p => extensionSelector q p.1)
    (a.fileExtensions.getD []) _ t3.1 t3.2
  have t5 := foldl_addSelector_invariant (fun p => fileNameSelector q p.1)
    (a.fileNames.getD []) _ t4.1 t4.2
  have t6 := foldl_addSelector_invariant (fun p => languageSelector q p.1)
    (a.languageIds.getD []) _ t5.1 t5.2
  simpa only [collectFromAssociation] using t6

theorem collectSelectors_invariant (a : Option FileIconsAssociation)
    (baseThemeClassName : Option String) (m : SelectorMap)
    (h1 : (m.map Prod.fst).Nodup) (h2 : ∀ p ∈ m, p.2 ≠ []) :
    (((collectSelectors a baseThemeClassName m).map Prod.fst).Nodup ∧
      ∀ p ∈ collectSelectors a baseThemeClassName m, p.2 ≠ []) := by
  match a with
  | none => exact ⟨h1, h2⟩
  | some assoc => exact collectFromAssociation_invariant _ assoc m h1 h2

theorem collectAll_invariant (doc : FileIconsDocument) :
    ((collectAll doc).map Prod.fst).Nodup ∧ ∀ p ∈ collectAll doc, p.2 ≠ [] := by
  have h0a : (([] : SelectorMap).map Prod.fst).Nodup := by simp
  have h0b : ∀ p ∈ ([] : SelectorMap), p.2 ≠ [] := by simp
  have t1 := collectSelectors_invariant (some doc.base) none [] h0a h0b
  have t2 := collectSelectors_invariant doc.light (some ".vs") _ t1.1 t1.2
  have t3 := collectSelectors_invariant doc.highContrast (some ".hc_black") _ t2.1 t2.2
  simpa only [collectAll] using t3

theorem iconOutputLoop_eq_filterMap (dir : String) (defs : List (String × FileIconDefinition)) :
    ∀ m : SelectorMap, iconOutputLoop dir defs m = m.filterMap (iconRuleFor dir defs) := by
  intro m
  induction m with
  | nil => rfl
  | cons p rest ih =>
    obtain ⟨defId, selectors⟩ := p
    cases hfind : (defs.find? (fun q => q.1 = defId)).map (fun q => q.2) with
    | none => simp [iconOutputLoop, iconRuleFor, List.filterMap_cons, hfind, ih]
    | some definition =>
      cases hip : definition.iconPath with
      | none => simp [iconOutputLoop, iconRuleFor, List.filterMap_cons, hfind, hip, ih]
      | some ip =>
        by_cases he : ip = ""
        · simp [iconOutputLoop, iconRuleFor, List.filterMap_cons, hfind, hip, he, ih]
        · simp [iconOutputLoop, iconRuleFor, List.filterMap_cons, hfind, hip, he, ih]

/-- C7: with iconDefinitions present, the compiled output is exactly one
rule per accumulated definition id whose definition carries a truthy
iconPath, joining all accumulated selectors of that id and resolving the
icon path against the document directory; ids missing from iconDefinitions
or without iconPath contribute nothing; accumulated ids are pairwise
distinct and never have an empty selector list. -/
theorem c7_icon_output_phase (setId fileIconsPath : String) (doc : FileIconsDocument)
    (defs : List (String × FileIconDefinition)) (hdefs : doc.iconDefinitions = some defs) :
    ((collectAll doc).map Prod.fst).Nodup ∧
    (∀ p ∈ collectAll doc, p.2 ≠ []) ∧
    processFileIconsObject setId fileIconsPath doc =
      jsJoin "\n" ((collectAll doc).filterMap (iconRuleFor (pathDirname fileIconsPath) defs)) := by
  have hinv := collectAll_invariant doc
  refine ⟨hinv.1, hinv.2, ?_⟩
  simp only [processFileIconsObject, hdefs]
  rw [iconOutputLoop_eq_filterMap]

/-- C7 witness: the output phase characterisation evaluated on the test
document with a multi-selector id, a missing definition and a definition
without icon path. -/
theorem c7_icon_output_phase_witness :
    ((collectAll docIconsW).map Prod.fst).Nodup ∧
    (∀ p ∈ collectAll docIconsW, p.2 ≠ []) ∧
    processFileIconsObject "w" "/icons/w.json" docIconsW =
      jsJoin "\n" ((collectAll docIconsW).filterMap (iconRuleFor (pathDirname "/icons/w.json") iconDefsW)) :=
  c7_icon_output_phase "w" "/icons/w.json" docIconsW iconDefsW rfl

/-! ## Claim C8: failed loads and previous state -/

theorem applyThemeLoad_error (env : Env) (st : ServiceState) (theme : ThemeData) (bc : Bool)
    (st1 : ServiceState) (msgs : List (String × String)) (e : String)
    (h : applyThemeLoad env st theme bc = (st1, msgs, Except.error e)) :
    st1 = st ∧ msgs = [] := by
  unfold applyThemeLoad at h
  cases hload : loadThemeDocument env.fuel env.themeFs theme.path with
  | error err =>
    simp only [hload, Prod.mk.injEq] at h
    exact ⟨h.1.symm, h.2.1.symm⟩
  | ok doc =>
    simp only [hload] at h
    simp at h

theorem applyTheme_error (env : Env) (st : ServiceState) (theme : ThemeData) (bc : Bool)
    (st1 : ServiceState) (msgs : List (String × String)) (e : String)
    (h : applyTheme env st theme bc = (st1, msgs, Except.error e)) :
    st1 = st ∧ msgs = [] := by
  unfold applyTheme at h
  cases hc : theme.styleSheetContent with
  | none =>
    simp only [hc] at h
    exact applyThemeLoad_error env st theme bc st1 msgs e h
  | some css =>
    simp only [hc] at h
    by_cases he : css = ""
    · rw [if_pos he] at h
      exact applyThemeLoad_error env st theme bc st1 msgs e h
    · rw [if_neg he] at h
      simp at h

theorem setColorTheme_error (env : Env) (st : ServiceState) (themeId : String) (bc : Bool)
    (st1 : ServiceState) (msgs : List (String × String)) (e : String)
    (h : setColorTheme env st themeId bc = (st1, msgs, Except.error e)) :
    st1 = st ∧ msgs = [] := by
  unfold setColorTheme at h
  by_cases h0 : themeId = ""
  · rw [if_pos h0] at h
    simp at h
  · rw [if_neg h0] at h
    by_cases h1 : st.currentTheme = some themeId
    · rw [if_pos h1] at h
      simp at h
    · rw [if_neg h1] at h
      cases hf : findThemeData st.knownThemes (validateThemeId themeId) DEFAULT_THEME_ID with
      | none =>
        simp only [hf] at h
        simp at h
      | some theme =>
        simp only [hf] at h
        exact applyTheme_error env st theme bc st1 msgs e h

theorem applyFileIconsLoad_error (env : Env) (st : ServiceState) (data : ThemeData)
    (st1 : ServiceState) (e : String)
    (h : applyFileIconsLoad env st data = (st1, Except.error e)) : st1 = st := by
  unfold applyFileIconsLoad at h
  cases hload : env.iconFs data.path with
  | ioError =>
    simp only [hload, Prod.mk.injEq] at h
    exact h.1.symm
  | parseFail ds =>
    simp only [hload, Prod.mk.injEq] at h
    exact h.1.symm
  | parsed doc =>
    simp only [hload] at h
    simp at h

theorem applyFileIcons_error (env : Env) (st : ServiceState) (data : ThemeData)
    (st1 : ServiceState) (e : String)
    (h : applyFileIcons env st data = (st1, Except.error e)) : st1 = st := by
  unfold applyFileIcons at h
  cases hc : data.styleSheetContent with
  | none =>
    simp only [hc] at h
    exact applyFileIconsLoad_error env st data st1 e h
  | some css =>
    simp only [hc] at h
    by_cases he : css = ""
    · rw [if_pos he] at h
      exact applyFileIconsLoad_error env st data st1 e h
    · rw [if_neg he] at h
      simp at h

theorem updateFileIcons_error (env : Env) (st : ServiceState) (st1 : ServiceState) (e : String)
    (h : updateFileIcons env st = (st1, Except.error e)) : st1 = st := by
  unfold updateFileIcons at h
  cases hf : findIconSet st.currentFileIcons st.knownFileIconContributions none with
  | none =>
    simp only [hf] at h
    simp at h
  | some data =>
    simp only [hf] at h
    exact applyFileIcons_error env st data st1 e h

/-- C8 counterexample: an icon set activation whose document read fails
still replaces the previously active icon set identifier, because
setFileIcons stores the new selection before the load is attempted; only
the installed stylesheet survives untouched. -/
theorem c8_failure_counterexample :
    stIconsFail.currentFileIcons = some "old" ∧
    (setFileIcons envFail stIconsFail (some "new")).2 =
      Except.error "Unable to load /icons/new.json" ∧
    (setFileIcons envFail stIconsFail (some "new")).1.currentFileIcons = some "new" ∧
    (setFileIcons envFail stIconsFail (some "new")).1.fileIconsStyleSheet =
      stIconsFail.fileIconsStyleSheet :=
  ⟨rfl, rfl, rfl, rfl⟩

/-- C8 amended: a color theme activation failing with a parse or read
error leaves the whole service state and broadcast output unchanged; a
file icon activation failing the same way leaves everything unchanged
except the current icon set identifier, which has already been replaced by
the requested one before the load. -/
theorem c8_failure_amended :
    (∀ (env : Env) (st : ServiceState) (themeId : String) (bc : Bool)
        (st1 : ServiceState) (msgs : List (String × String)) (e : String),
      setColorTheme env st themeId bc = (st1, msgs, Except.error e) → st1 = st ∧ msgs = []) ∧
    (∀ (env : Env) (st : ServiceState) (fileIcons : Option String)
        (st1 : ServiceState) (e : String),
      setFileIcons env st fileIcons = (st1, Except.error e) →
        st1 = { st with currentFileIcons := fileIcons }) := by
  constructor
  · exact setColorTheme_error
  · intro env st fileIcons st1 e h
    unfold setFileIcons at h
    by_cases hd : fileIcons ≠ st.currentFileIcons
    · rw [if_pos hd] at h
      exact updateFileIcons_error env { st with currentFileIcons := fileIcons } st1 e h
    · rw [if_neg hd] at h
      simp at h

/-- C8 witness: both amended branches evaluated on the failing read
environment. -/
theorem c8_failure_amended_witness :
    (setColorTheme envFail stColorFail "theme.broken" false).1 = stColorFail ∧
    (setFileIcons envFail stIconsFail (some "new")).1 =
      { stIconsFail with currentFileIcons := some "new" } :=
  ⟨(c8_failure_amended.1 envFail stColorFail "theme.broken" false
      (setColorTheme envFail stColorFail "theme.broken" false).1
      (setColorTheme envFail stColorFail "theme.broken" false).2.1
      "Unable to load /themes/broken.json" rfl).1,
    c8_failure_amended.2 envFail stIconsFail (some "new")
      (setFileIcons envFail stIconsFail (some "new")).1
      "Unable to load /icons/new.json" rfl⟩

/-! ## Claim C9: unknown id and unknown default -/

/-- C9 counterexample: the requested id vs matches no known contribution
and the configured default id matches none either, yet activation succeeds
and mutates the stored preference, because the lookup uses the legacy
migration of the requested id. -/
theorem c9_unknown_id_counterexample :
    (∀ t ∈ stMigration.knownThemes, t.id ≠ "vs") ∧
    (∀ t ∈ stMigration.knownThemes, t.id ≠ DEFAULT_THEME_ID) ∧
    (setColorTheme envMigration stMigration "vs" false).2.2 = Except.ok true ∧
    (setColorTheme envMigration stMigration "vs" false).1.storedThemePref =
      some "vs vscode-theme-defaults-themes-light_vs-json" ∧
    stMigration.storedThemePref = none := by
  refine ⟨by decide, by decide, rfl, rfl, rfl⟩

/-- C9 amended: when the requested id is non-empty, differs from the
active one, and its legacy-migrated form matches no known contribution,
and the configured default id matches none either, activation returns a
negative result, emits no broadcast and leaves the state fully unchanged,
raising no exception. -/
theorem c9_unknown_id_amended (env : Env) (st : ServiceState) (themeId : String) (bc : Bool)
    (h0 : themeId ≠ "") (h1 : st.currentTheme ≠ some themeId)
    (h2 : ∀ t ∈ st.knownThemes, t.id ≠ validateThemeId themeId)
    (h3 : ∀ t ∈ st.knownThemes, t.id ≠ DEFAULT_THEME_ID) :
    setColorTheme env st themeId bc = (st, [], Except.ok false) := by
  unfold setColorTheme
  rw [if_neg h0, if_neg h1]
  have ha : st.knownThemes.find? (fun t => t.id = validateThemeId themeId) = none := by
    rw [List.find?_eq_none]
    intro x hx
    simp [h2 x hx]
  have hb : st.knownThemes.find? (fun t => t.id = DEFAULT_THEME_ID) = none := by
    rw [List.find?_eq_none]
    intro x hx
    simp [h3 x hx]
  simp only [findThemeData, ha, hb]

/-- C9 witness: the amended negative activation evaluated on the empty
registry. -/
theorem c9_unknown_id_amended_witness :
    setColorTheme envFail stEmpty "nope" false = (stEmpty, [], Except.ok false) :=
  c9_unknown_id_amended envFail stEmpty "nope" false (by decide) (by decide)
    (by decide) (by decide)

/-! ## Claim C10: activation of the already active id -/

/-- C10: requesting the currently active theme id again succeeds without
any load, compilation or state mutation, for every environment, and emits
the broadcast on the theme channel exactly when the broadcast flag is set. -/
theorem c10_same_id_noop (env : Env) (st : ServiceState) (themeId : String) (bc : Bool)
    (h0 : themeId ≠ "") (h1 : st.currentTheme = some themeId) :
    setColorTheme env st themeId bc =
      (st, if bc then [(THEME_CHANNEL, themeId)] else [], Except.ok true) := by
  unfold setColorTheme
  rw [if_neg h0, if_pos h1]

/-- C10 witness: the no-op re-activation with the broadcast flag set. -/
theorem c10_same_id_noop_witness :
    setColorTheme envFail stCurrent "theme.current" true =
      (stCurrent, [(THEME_CHANNEL, "theme.current")], Except.ok true) := by
  have h := c10_same_id_noop envFail stCurrent "theme.current" true (by decide) rfl
  simpa using h

end ThemeServiceModel
